import Mathlib

/-!
Verification development for the datanymizer repository core:
the Postgres schema inspector (`datanymizer_dumper/src/postgres/schema_inspector.rs`)
and the dump-orchestration policy of the CLI (`cli/pg_datanymizer/src/app.rs`).

The database connection is modelled as a record of pure query functions, one per
SQL constant appearing in the source; each returns `Except DbError` results,
mirroring the fallible `postgres` client calls. Rust's `panic!` inside
`get_tables` is modelled as a dedicated fatal error constructor (the process
aborts), and the `println!` logging inside `get_dependencies` is modelled by
returning the logged errors alongside the value in `processTableLogged`.
-/

/-- A database/query error, as produced by the `postgres` client. -/
inductive DbError where
  | queryError : String → DbError
deriving DecidableEq, Repr

/-- Outcome errors of `get_tables`: either the propagated query error from the
`?` operator, or the abort caused by `panic!("ERR: ...")` on a failed size
estimation. -/
inductive DumpError where
  | db : DbError → DumpError
  | fatal : DbError → DumpError
deriving DecidableEq, Repr

/-- Modelled from the spec: `PgSequence` (sequence.rs is not under src/);
a sequence carries its fully-qualified name. -/
structure PgSequence where
  full_name : String
deriving DecidableEq, Repr

/-- Modelled from the spec: `PgColumn` (column.rs is not under src/); a column
has a name, a 1-based ordinal position, a declared data-type name, and the
underlying catalog type oid. -/
structure PgColumn where
  name : String
  position : Int
  data_type : String
  type_oid : Nat
deriving DecidableEq, Repr

/-- One result row of `TABLE_COLUMNS_QUERY`
(`SELECT cc.column_name, cc.ordinal_position, cc.data_type, pt.oid ... ORDER BY
cc.ordinal_position ASC`). The join to `pg_catalog.pg_type` that resolves the
oid is folded into the stored row. -/
structure ColumnRow where
  column_name : String
  ordinal_position : Int
  data_type : String
  oid : Nat
deriving DecidableEq, Repr

/-- Modelled from the spec: the row-to-entity conversion `row.into()` for
columns (Relational Model Builder, pure field-for-field mapping). -/
def PgColumn.fromRow (r : ColumnRow) : PgColumn :=
  ⟨r.column_name, r.ordinal_position, r.data_type, r.oid⟩

/-- One result row of `PG_CATALOG_SCHEMA`
(`SELECT tablename, schemaname FROM pg_catalog.pg_tables WHERE ...`). -/
structure TableRow where
  tablename : String
  schemaname : String
deriving DecidableEq, Repr

/-- One result row of the `TABLE_FOREIGN_KEYS` query. -/
structure FkRow where
  table_schema : String
  constraint_name : String
  table_name : String
  column_name : String
  foreign_table_schema : String
  foreign_table_name : String
  foreign_column_name : String
deriving DecidableEq, Repr

/-- The `ForeignKey` entity (foreign_key.rs is not under src/; modelled from the
spec: constraint name, owning schema/table/column, referenced
schema/table/column). -/
structure ForeignKey where
  table_schema : String
  constraint_name : String
  table_name : String
  column_name : String
  foreign_table_schema : String
  foreign_table_name : String
  foreign_column_name : String
deriving DecidableEq, Repr

/-- Modelled from the spec: the row-to-entity conversion `row.into()` for
foreign keys (pure field-for-field mapping). -/
def ForeignKey.fromRow (r : FkRow) : ForeignKey :=
  ⟨r.table_schema, r.constraint_name, r.table_name, r.column_name,
   r.foreign_table_schema, r.foreign_table_name, r.foreign_column_name⟩

/-- Modelled from the spec: `PgTable` (table.rs is not under src/); identified
by schema and table name, owning an ordered list of columns, a list of
sequences, and an approximate byte `size` (i64). -/
structure PgTable where
  tablename : String
  schemaname : String
  columns : List PgColumn
  sequences : List PgSequence
  size : Int
deriving DecidableEq, Repr

/-- Modelled from the spec: `PgTable::new(table_name, schema_name)` creates a
table with no columns, no sequences, and size left at the neutral default. -/
def PgTable.new (tablename schemaname : String) : PgTable :=
  ⟨tablename, schemaname, [], [], 0⟩

/-- Modelled from the spec: `PgTable::set_columns`. -/
def PgTable.set_columns (t : PgTable) (columns : List PgColumn) : PgTable :=
  { t with columns := columns }

/-- Modelled from the spec: `PgTable::set_sequences`. -/
def PgTable.set_sequences (t : PgTable) (sequences : List PgSequence) : PgTable :=
  { t with sequences := sequences }

/-- Modelled from the spec: `PgTable::get_name`, the name passed as the `$1`
parameter of `TABLE_FOREIGN_KEYS` (which filters on `tc.table_name`). -/
def PgTable.get_name (t : PgTable) : String :=
  t.tablename

/-- Modelled from the spec: `PgTable::quoted_full_name`, the quoted
schema-qualified name passed to `pg_get_serial_sequence`. -/
def PgTable.quoted_full_name (t : PgTable) : String :=
  "\"" ++ t.schemaname ++ "\".\"" ++ t.tablename ++ "\""

/-- Modelled from the spec: the row-to-entity conversion `row.into()` for the
top-level listing (a Table is created when a catalog row is mapped). -/
def PgTable.fromRow (r : TableRow) : PgTable :=
  PgTable.new r.tablename r.schemaname

/-- The live database connection, modelled as one pure fallible function per
SQL constant of schema_inspector.rs:
`tablesQuery` = `PG_CATALOG_SCHEMA` (no parameters);
`foreignKeysQuery` = `TABLE_FOREIGN_KEYS` (`$1` = table name);
`columnsQuery` = `TABLE_COLUMNS_QUERY` (`$1` = schema, `$2` = table name);
`sizeQuery` = `TABLE_SIZE_QUERY` via `query_one` (`$1` = table name, `$2` =
schema), returning the single `len` value;
`serialSequenceQuery` = `pg_get_serial_sequence($1, $2)` via `query_one`
(`$1` = quoted full table name, `$2` = column name). -/
structure Connection where
  tablesQuery : Except DbError (List TableRow)
  foreignKeysQuery : String → Except DbError (List FkRow)
  columnsQuery : String → String → Except DbError (List ColumnRow)
  sizeQuery : String → String → Except DbError Int
  serialSequenceQuery : String → String → Except DbError (Option String)

/-- `PgSchemaInspector::get_columns`: run `TABLE_COLUMNS_QUERY` with the
table's schema and name and map each row into a `PgColumn`. -/
def get_columns (conn : Connection) (table : PgTable) : Except DbError (List PgColumn) :=
  match conn.columnsQuery table.schemaname table.tablename with
  | .ok rows => .ok (rows.map PgColumn.fromRow)
  | .error e => .error e

/-- `PgSchemaInspector::get_table_size`: run `TABLE_SIZE_QUERY` with the
table's name and schema and return the single `len` value. -/
def get_table_size (conn : Connection) (table : PgTable) : Except DbError Int :=
  conn.sizeQuery table.tablename table.schemaname

/-- The loop body of `PgSchemaInspector::get_sequences`: for each column in
order, ask `pg_get_serial_sequence`; a query failure propagates via `?`,
a non-null name is collected. -/
def sequencesLoop (query : String → Except DbError (Option String)) :
    List PgColumn → Except DbError (List PgSequence)
  | [] => .ok []
  | c :: cs =>
    match query c.name with
    | .error e => .error e
    | .ok none => sequencesLoop query cs
    | .ok (some full_name) =>
      match sequencesLoop query cs with
      | .error e => .error e
      | .ok rest => .ok (PgSequence.mk full_name :: rest)

/-- `PgSchemaInspector::get_sequences`: walk the table's columns, querying the
backing sequence of each with the table's quoted full name. -/
def get_sequences (conn : Connection) (table : PgTable) : Except DbError (List PgSequence) :=
  sequencesLoop (fun colName => conn.serialSequenceQuery table.quoted_full_name colName)
    table.columns

/-- The shared attachment prefix of the per-table closures in `get_tables` and
`get_dependencies`: `if let Ok(columns) = ... { table.set_columns(columns) }`
followed by `if let Ok(sequences) = ... { table.set_sequences(sequences) }`
(failures are swallowed, leaving the table unchanged). -/
def attachColumns (conn : Connection) (table : PgTable) : PgTable :=
  match get_columns conn table with
  | .ok columns => table.set_columns columns
  | .error _ => table

/-- The sequence half of the attachment prefix, applied to the table as left
by the column attachment (the source queries sequences after the columns have
been set, when setting them succeeded). -/
def attachColumnsSequences (conn : Connection) (table : PgTable) : PgTable :=
  match get_sequences conn (attachColumns conn table) with
  | .ok sequences => (attachColumns conn table).set_sequences sequences
  | .error _ => attachColumns conn table

/-- The per-table closure of `get_tables`: attach columns/sequences
best-effort, then `match get_table_size` with `Ok(size) => table.size = size`
and `Err(e) => panic!("ERR: ...")` (modelled as the fatal error). -/
def processTableFatal (conn : Connection) (table : PgTable) : Except DumpError PgTable :=
  match get_table_size conn (attachColumnsSequences conn table) with
  | .ok size => .ok { attachColumnsSequences conn table with size := size }
  | .error e => .error (DumpError.fatal e)

/-- The per-table closure of `get_dependencies`: attach columns/sequences
best-effort, then `match get_table_size` with `Ok(size) => table.size = size`
and `Err(e) => println!("ERR: ...")` — the error is only logged; the second
component collects the logged errors. -/
def processTableLogged (conn : Connection) (table : PgTable) : PgTable × List DbError :=
  match get_table_size conn (attachColumnsSequences conn table) with
  | .ok size => ({ attachColumnsSequences conn table with size := size }, [])
  | .error e => (attachColumnsSequences conn table, [e])

/-- The `.map(...)` fold of `get_tables`, with the `counter` local variable
threaded through exactly as the Rust closure mutates it (`counter += 1` after
each table is processed). A size failure aborts the whole loop. -/
def tablesLoop (conn : Connection) : List PgTable → Nat → Except DumpError (List PgTable)
  | [], _ => .ok []
  | t :: ts, counter =>
    match processTableFatal conn t with
    | .error e => .error e
    | .ok t1 =>
      match tablesLoop conn ts (counter + 1) with
      | .error e => .error e
      | .ok rest => .ok (t1 :: rest)

/-- `PgSchemaInspector::get_tables`: run `PG_CATALOG_SCHEMA` (its failure
propagates via `?`), map each row into a table, and process each table with
the counter-instrumented loop. -/
def get_tables (conn : Connection) : Except DumpError (List PgTable) :=
  match conn.tablesQuery with
  | .error e => .error (DumpError.db e)
  | .ok rows => tablesLoop conn (rows.map PgTable.fromRow) 0

/-- The counter-free variant of the `get_tables` loop, following the spec's
words that the counter is dead instrumentation and may be dropped. -/
def tablesLoopSpec (conn : Connection) : List PgTable → Except DumpError (List PgTable)
  | [] => .ok []
  | t :: ts =>
    match processTableFatal conn t with
    | .error e => .error e
    | .ok t1 =>
      match tablesLoopSpec conn ts with
      | .error e => .error e
      | .ok rest => .ok (t1 :: rest)

/-- `get_tables` with the counter removed (the spec-side reimplementation for
the refinement claim). -/
def get_tables_spec (conn : Connection) : Except DumpError (List PgTable) :=
  match conn.tablesQuery with
  | .error e => .error (DumpError.db e)
  | .ok rows => tablesLoopSpec conn (rows.map PgTable.fromRow)

/-- The first `.map` stage of `get_dependencies`:
`PgTable::new(fkey.foreign_table_name, fkey.foreign_table_schema)`. -/
def tableFromFkey (fkey : ForeignKey) : PgTable :=
  PgTable.new fkey.foreign_table_name fkey.foreign_table_schema

/-- The second `.map` stage of `get_dependencies`: the logging (non-fatal)
per-table closure, keeping only the table. -/
def processDependency (conn : Connection) (table : PgTable) : PgTable :=
  (processTableLogged conn table).fst

/-- `PgSchemaInspector::get_dependencies`: run `TABLE_FOREIGN_KEYS` for the
table's name (failure propagates via `?`), map each row into a `ForeignKey`,
build a fresh `PgTable::new(foreign_table_name, foreign_table_schema)` per
constraint, and process each with the logging (non-fatal) closure. -/
def get_dependencies (conn : Connection) (table : PgTable) : Except DbError (List PgTable) :=
  match conn.foreignKeysQuery table.get_name with
  | .error e => .error e
  | .ok rows =>
    .ok (((rows.map ForeignKey.fromRow).map tableFromFkey).map (processDependency conn))

/-- The `IsolationLevel` enum of the dumper crate, matching the four standard
SQL isolation levels. -/
inductive IsolationLevel where
  | ReadUncommitted
  | ReadCommitted
  | RepeatableRead
  | Serializable
deriving DecidableEq, Repr

/-- The `TransactionConfig` CLI enum (options.rs): the five configurable
values of `--dump-transaction`. -/
inductive TransactionConfig where
  | NoTransaction
  | ReadUncommitted
  | ReadCommitted
  | RepeatableRead
  | Serializable
deriving DecidableEq, Repr

/-- Modelled from the spec: the default of `--dump-transaction` when the flag
is omitted (options.rs is not under src/); the spec and the tests in app.rs
fix it to `ReadCommitted`. -/
def TransactionConfig.default : TransactionConfig :=
  TransactionConfig.ReadCommitted

/-- `App::dump_isolation_level` (app.rs lines 70-78): the match from the
configured `TransactionConfig` to an optional `IsolationLevel`. -/
def dump_isolation_level : TransactionConfig → Option IsolationLevel
  | .NoTransaction => none
  | .ReadUncommitted => some IsolationLevel.ReadUncommitted
  | .ReadCommitted => some IsolationLevel.ReadCommitted
  | .RepeatableRead => some IsolationLevel.RepeatableRead
  | .Serializable => some IsolationLevel.Serializable

/-- The state of a filesystem path, as far as Rust's `std::fs::File::create`
is concerned: absent, an existing writable file, or unwritable (permission
denied, a directory, ...). -/
inductive FileState where
  | absent
  | writableFile
  | unwritable
deriving DecidableEq, Repr

/-- A filesystem, mapping each path to its state. -/
structure FileSystem where
  state : String → FileState

/-- An I/O error from sink creation. -/
inductive IoError where
  | createFailed
deriving DecidableEq, Repr

/-- Rust `std::fs::File::create(path)`: creates the file if the path is
absent, truncates it if a writable file already exists there, and fails only
when the path is unwritable. (Exclusive creation would be `File::create_new`,
which the source does not use.) -/
def fileCreate (fs : FileSystem) (path : String) : Except IoError Unit :=
  match fs.state path with
  | .unwritable => .error IoError.createFailed
  | _ => .ok ()

/-- The output sink chosen by `App::run`: either the file at the configured
path, or the process's standard output. -/
inductive Sink where
  | file : String → Sink
  | standardOutput
deriving DecidableEq, Repr

/-- The progress indicator chosen by `App::run`: `ConsoleIndicator::new()`
(interactive) or `SilentIndicator`. -/
inductive Indicator where
  | console
  | silent
deriving DecidableEq, Repr

/-- The sink/indicator selection of `App::run` (app.rs lines 33-53): with a
configured destination path the sink is `File::create(filename)?` and the
indicator is `ConsoleIndicator`; with none, the sink is `io::stdout()` and the
indicator is `SilentIndicator`. -/
def selectSinkAndIndicator (fs : FileSystem) (fileOpt : Option String) :
    Except IoError (Sink × Indicator) :=
  match fileOpt with
  | some filename =>
    match fileCreate fs filename with
    | .ok _ => .ok (Sink.file filename, Indicator.console)
    | .error e => .error e
  | none => .ok (Sink.standardOutput, Indicator.silent)

/-- One row of `pg_catalog.pg_class` joined with `pg_namespace`, carrying the
statistics `TABLE_SIZE_QUERY` reads: `reltuples` (live-tuple estimate, a float
statistic modelled as an integer), `relpages`, and `pg_relation_size(oid)`. -/
structure PgClassEntry where
  relname : String
  nspname : String
  reltuples : Int
  relpages : Int
  relationSize : Int
deriving DecidableEq, Repr

/-- The divisor used by `TABLE_SIZE_QUERY`:
`COALESCE(NULLIF(relpages, 0), 1)` replaces a zero page count by 1. -/
def pagesDivisor (relpages : Int) : Int :=
  if relpages = 0 then 1 else relpages

/-- The `len` expression of `TABLE_SIZE_QUERY`:
`(reltuples / COALESCE(NULLIF(relpages, 0), 1))::bigint *
(pg_relation_size(oid)::bigint / current_setting('block_size')::bigint)::bigint`
(bigint division truncates; the exact rounding mode is immaterial to the
properties proved here). -/
def rowLen (blockSize : Int) (e : PgClassEntry) : Int :=
  (e.reltuples / pagesDivisor e.relpages) * (e.relationSize / blockSize)

/-- Evaluation of `TABLE_SIZE_QUERY` via `query_one` against a `pg_class`
snapshot: the `WHERE relname = $1 AND nspname = $2` filter must select exactly
one row (otherwise `query_one` errors), and the single `len` value is
returned. -/
def runSizeQuery (entries : List PgClassEntry) (blockSize : Int)
    (relname nspname : String) : Except DbError Int :=
  match entries.filter (fun e => e.relname == relname && e.nspname == nspname) with
  | [e] => .ok (rowLen blockSize e)
  | _ => .error (DbError.queryError "query_one: expected a single row")

/-- A connection whose size query is backed by a `pg_class` snapshot and a
block-size setting, the other queries taken from `base`. -/
def sizeConnection (entries : List PgClassEntry) (blockSize : Int)
    (base : Connection) : Connection :=
  { base with sizeQuery := fun relname nspname => runSizeQuery entries blockSize relname nspname }

/-- Evaluation of `TABLE_COLUMNS_QUERY` against the catalog's column rows for
one table: the `ORDER BY cc.ordinal_position ASC` clause sorts the rows by
ordinal position. -/
def runColumnsQuery (rows : List ColumnRow) : List ColumnRow :=
  rows.mergeSort (fun a b => decide (a.ordinal_position ≤ b.ordinal_position))

/-- A connection whose columns query is backed by a catalog assigning each
(schema, table name) pair its column rows, the other queries taken from
`base`. -/
def columnsConnection (catalog : String → String → List ColumnRow)
    (base : Connection) : Connection :=
  { base with columnsQuery := fun schema tname => .ok (runColumnsQuery (catalog schema tname)) }

/-! ## Helper lemmas -/

theorem except_isOk_false {ε α : Type} (x : Except ε α) :
    x.isOk = false ↔ ∃ e, x = .error e := by
  cases x <;> simp [Except.isOk, Except.toBool]

theorem except_isOk_true {ε α : Type} (x : Except ε α) :
    x.isOk = true ↔ ∃ a, x = .ok a := by
  cases x <;> simp [Except.isOk, Except.toBool]

theorem attachColumns_meta (conn : Connection) (t : PgTable) :
    (attachColumns conn t).tablename = t.tablename ∧
    (attachColumns conn t).schemaname = t.schemaname ∧
    (attachColumns conn t).size = t.size ∧
    (attachColumns conn t).sequences = t.sequences := by
  unfold attachColumns
  cases get_columns conn t <;> simp [PgTable.set_columns]

theorem attach_meta (conn : Connection) (t : PgTable) :
    (attachColumnsSequences conn t).tablename = t.tablename ∧
    (attachColumnsSequences conn t).schemaname = t.schemaname ∧
    (attachColumnsSequences conn t).size = t.size := by
  obtain ⟨h1, h2, h3, _⟩ := attachColumns_meta conn t
  unfold attachColumnsSequences
  cases get_sequences conn (attachColumns conn t) <;>
    simp [PgTable.set_sequences, h1, h2, h3]

theorem get_table_size_attach (conn : Connection) (t : PgTable) :
    get_table_size conn (attachColumnsSequences conn t) = get_table_size conn t := by
  obtain ⟨h1, h2, _⟩ := attach_meta conn t
  unfold get_table_size
  rw [h1, h2]

theorem processTableFatal_of_ok (conn : Connection) (t : PgTable) (s : Int)
    (h : get_table_size conn t = .ok s) :
    processTableFatal conn t = .ok ((processTableLogged conn t).fst) := by
  unfold processTableFatal processTableLogged
  rw [get_table_size_attach, h]

theorem processTableFatal_of_error (conn : Connection) (t : PgTable) (e : DbError)
    (h : get_table_size conn t = .error e) :
    processTableFatal conn t = .error (DumpError.fatal e) := by
  unfold processTableFatal
  rw [get_table_size_attach, h]

theorem tablesLoop_eq_spec (conn : Connection) (ts : List PgTable) (counter : Nat) :
    tablesLoop conn ts counter = tablesLoopSpec conn ts := by
  induction ts generalizing counter with
  | nil => rfl
  | cons t ts ih =>
    unfold tablesLoop tablesLoopSpec
    rw [ih]

theorem tablesLoopSpec_ok (conn : Connection) (ts : List PgTable)
    (h : ∀ t ∈ ts, (get_table_size conn t).isOk = true) :
    tablesLoopSpec conn ts = .ok (ts.map (fun t => (processTableLogged conn t).fst)) := by
  induction ts with
  | nil => rfl
  | cons t ts ih =>
    obtain ⟨s, hs⟩ := (except_isOk_true _).mp (h t (by simp))
    have hrest := ih (fun x hx => h x (by simp [hx]))
    unfold tablesLoopSpec
    rw [processTableFatal_of_ok conn t s hs, hrest]
    rfl

theorem tablesLoopSpec_error (conn : Connection) (ts : List PgTable)
    (h : ∃ t ∈ ts, (get_table_size conn t).isOk = false) :
    ∃ err, tablesLoopSpec conn ts = .error err := by
  induction ts with
  | nil => simp at h
  | cons t ts ih =>
    cases hsz : (get_table_size conn t) with
    | error e =>
      refine ⟨DumpError.fatal e, ?_⟩
      unfold tablesLoopSpec
      rw [processTableFatal_of_error conn t e hsz]
    | ok s =>
      obtain ⟨w, hw, hwf⟩ := h
      rcases List.mem_cons.mp hw with rfl | hw2
      · rw [hsz] at hwf
        simp [Except.isOk, Except.toBool] at hwf
      · obtain ⟨err, herr⟩ := ih ⟨w, hw2, hwf⟩
        refine ⟨err, ?_⟩
        unfold tablesLoopSpec
        rw [processTableFatal_of_ok conn t s hsz, herr]

theorem attachColumns_of_error (conn : Connection) (t : PgTable)
    (hc : (get_columns conn t).isOk = false) :
    attachColumns conn t = t := by
  obtain ⟨e, he⟩ := (except_isOk_false _).mp hc
  unfold attachColumns
  rw [he]

theorem get_sequences_of_no_columns (conn : Connection) (t : PgTable)
    (hcols : t.columns = []) :
    get_sequences conn t = .ok [] := by
  unfold get_sequences
  rw [hcols]
  rfl

theorem processTableLogged_fst_of_columns_failure (conn : Connection) (t : PgTable)
    (hcols : t.columns = [])
    (hc : (get_columns conn t).isOk = false) :
    ((processTableLogged conn t).fst).columns = [] ∧
    ((processTableLogged conn t).fst).sequences = [] := by
  have hac : attachColumns conn t = t := attachColumns_of_error conn t hc
  have hat : attachColumnsSequences conn t = t.set_sequences [] := by
    unfold attachColumnsSequences
    rw [hac, get_sequences_of_no_columns conn t hcols]
  unfold processTableLogged
  rw [hat]
  cases get_table_size conn (t.set_sequences []) <;>
    simp [PgTable.set_sequences, hcols]

theorem processTableLogged_fst_of_sequences_failure (conn : Connection) (t : PgTable)
    (hseqs : t.sequences = [])
    (hs : (get_sequences conn (attachColumns conn t)).isOk = false) :
    ((processTableLogged conn t).fst).sequences = [] := by
  obtain ⟨e, he⟩ := (except_isOk_false _).mp hs
  have hat : attachColumnsSequences conn t = attachColumns conn t := by
    unfold attachColumnsSequences
    rw [he]
  have h4 := (attachColumns_meta conn t).2.2.2
  unfold processTableLogged
  rw [hat]
  cases get_table_size conn (attachColumns conn t) <;> simp [h4, hseqs]

theorem processTableLogged_of_size_error (conn : Connection) (t : PgTable) (e : DbError)
    (h : get_table_size conn t = .error e) :
    (processTableLogged conn t).fst = attachColumnsSequences conn t ∧
    (processTableLogged conn t).snd = [e] := by
  unfold processTableLogged
  rw [get_table_size_attach, h]
  exact ⟨rfl, rfl⟩

theorem sequencesLoop_ok (query : String → Except DbError (Option String))
    (cols : List PgColumn)
    (h : ∀ c ∈ cols, (query c.name).isOk = true) :
    sequencesLoop query cols = .ok (cols.filterMap (fun c =>
      match query c.name with
      | .ok (some full_name) => some (PgSequence.mk full_name)
      | _ => none)) := by
  induction cols with
  | nil => rfl
  | cons c cs ih =>
    obtain ⟨a, ha⟩ := (except_isOk_true _).mp (h c (by simp))
    have hrest := ih (fun x hx => h x (by simp [hx]))
    unfold sequencesLoop
    rw [ha, hrest]
    cases a <;> simp [List.filterMap_cons, ha]

theorem sequencesLoop_first_error (query : String → Except DbError (Option String))
    (pre : List PgColumn) (c : PgColumn) (post : List PgColumn) (e : DbError)
    (hpre : ∀ c2 ∈ pre, (query c2.name).isOk = true)
    (hc : query c.name = .error e) :
    sequencesLoop query (pre ++ c :: post) = .error e := by
  induction pre with
  | nil =>
    unfold sequencesLoop
    simp only [List.nil_append]
    rw [hc]
  | cons p ps ih =>
    obtain ⟨a, ha⟩ := (except_isOk_true _).mp (hpre p (by simp))
    have hrest := ih (fun x hx => hpre x (by simp [hx]))
    unfold sequencesLoop
    simp only [List.cons_append]
    rw [ha, hrest]
    cases a <;> simp

/-! ## Example inputs used by the witnesses -/

/-- A connection on which every query succeeds with an empty/neutral answer. -/
def noopConn : Connection :=
  { tablesQuery := .ok []
    foreignKeysQuery := fun _ => .ok []
    columnsQuery := fun _ _ => .ok []
    sizeQuery := fun _ _ => .ok 0
    serialSequenceQuery := fun _ _ => .ok none }

/-- A connection whose size query (and column/sequence queries) fail while the
top-level table listing succeeds with a single table. -/
def failSizeConn : Connection :=
  { tablesQuery := .ok [⟨"users", "public"⟩]
    foreignKeysQuery := fun _ => .ok []
    columnsQuery := fun _ _ => .error (DbError.queryError "columns failed")
    sizeQuery := fun _ _ => .error (DbError.queryError "size failed")
    serialSequenceQuery := fun _ _ => .error (DbError.queryError "sequence failed") }

/-- A connection with one table whose column query fails while its size query
succeeds. -/
def colFailConn : Connection :=
  { tablesQuery := .ok [⟨"users", "public"⟩]
    foreignKeysQuery := fun _ => .ok []
    columnsQuery := fun _ _ => .error (DbError.queryError "columns failed")
    sizeQuery := fun _ _ => .ok 7
    serialSequenceQuery := fun _ _ => .ok none }

/-- A connection with one table whose column query succeeds with one column
but whose serial-sequence query fails, sizes succeeding. -/
def seqAttachFailConn : Connection :=
  { tablesQuery := .ok [⟨"users", "public"⟩]
    foreignKeysQuery := fun _ => .ok []
    columnsQuery := fun _ _ => .ok [⟨"id", 1, "integer", 23⟩]
    sizeQuery := fun _ _ => .ok 7
    serialSequenceQuery := fun _ _ => .error (DbError.queryError "sequence failed") }

/-! ## Claims -/

/-- C1: the isolation-level resolution is pure and total over the five
enumerated configuration values: `NoTransaction` maps to `none`, the other
four map one-to-one onto the standard SQL isolation level of the same name
(the five outputs are pairwise distinct), with no error path; the default
configuration value resolves to read-committed. -/
theorem isolation_level_total_mapping :
    dump_isolation_level TransactionConfig.NoTransaction = none ∧
    dump_isolation_level TransactionConfig.ReadUncommitted =
      some IsolationLevel.ReadUncommitted ∧
    dump_isolation_level TransactionConfig.ReadCommitted =
      some IsolationLevel.ReadCommitted ∧
    dump_isolation_level TransactionConfig.RepeatableRead =
      some IsolationLevel.RepeatableRead ∧
    dump_isolation_level TransactionConfig.Serializable =
      some IsolationLevel.Serializable ∧
    dump_isolation_level TransactionConfig.default = some IsolationLevel.ReadCommitted ∧
    (List.map dump_isolation_level
      [TransactionConfig.NoTransaction, TransactionConfig.ReadUncommitted,
       TransactionConfig.ReadCommitted, TransactionConfig.RepeatableRead,
       TransactionConfig.Serializable]).Nodup := by
  refine ⟨rfl, rfl, rfl, rfl, rfl, rfl, ?_⟩
  decide

/-- C7: `get_dependencies` on a table for which the foreign-key constraint
query returns no rows returns an empty sequence, never an error. -/
theorem get_dependencies_empty_on_no_fkeys (conn : Connection) (table : PgTable)
    (h : conn.foreignKeysQuery table.get_name = .ok []) :
    get_dependencies conn table = .ok [] := by
  unfold get_dependencies
  rw [h]
  rfl

theorem get_dependencies_empty_on_no_fkeys_witness :
    get_dependencies noopConn (PgTable.new "users" "public") = .ok [] :=
  get_dependencies_empty_on_no_fkeys noopConn (PgTable.new "users" "public") rfl

/-- C8: the per-table counter incremented inside the table-listing loop has no
observable consumer: `get_tables` equals its counter-free reimplementation
`get_tables_spec` on every connection. -/
theorem get_tables_counter_dead (conn : Connection) :
    get_tables conn = get_tables_spec conn := by
  unfold get_tables get_tables_spec
  cases conn.tablesQuery with
  | error e => rfl
  | ok rows => exact tablesLoop_eq_spec conn (rows.map PgTable.fromRow) 0

/-- C2: in the top-level table listing, for every discovered table a failure
of column attachment leaves the table with empty columns (and hence empty
sequences, there being no columns to walk), and a failure of sequence
attachment — queried on the table as left by the column attachment, as the
source does — leaves its sequences empty; both are swallowed and the listing
continues, whereas a failure of size estimation for any table aborts the
whole listing. -/
theorem get_tables_error_policy (conn : Connection) (rows : List TableRow)
    (hq : conn.tablesQuery = .ok rows) :
    ((∀ r ∈ rows, (get_table_size conn (PgTable.fromRow r)).isOk = true) →
      ∃ ts : List PgTable, get_tables conn = .ok ts ∧ ts.length = rows.length ∧
        ∀ i : Nat, ∀ hi : i < rows.length, ∀ ho : i < ts.length,
          ((get_columns conn (PgTable.fromRow (rows.get ⟨i, hi⟩))).isOk = false →
            (ts.get ⟨i, ho⟩).columns = [] ∧ (ts.get ⟨i, ho⟩).sequences = []) ∧
          ((get_sequences conn
              (attachColumns conn (PgTable.fromRow (rows.get ⟨i, hi⟩)))).isOk = false →
            (ts.get ⟨i, ho⟩).sequences = [])) ∧
    ((∃ r ∈ rows, (get_table_size conn (PgTable.fromRow r)).isOk = false) →
      ∃ err : DumpError, get_tables conn = .error err) := by
  have hgt : get_tables conn = tablesLoopSpec conn (rows.map PgTable.fromRow) := by
    unfold get_tables
    rw [hq]
    exact tablesLoop_eq_spec conn (rows.map PgTable.fromRow) 0
  constructor
  · intro hsizes
    have hall : ∀ t ∈ rows.map PgTable.fromRow, (get_table_size conn t).isOk = true := by
      intro t ht
      obtain ⟨r, hr, rfl⟩ := List.mem_map.mp ht
      exact hsizes r hr
    refine ⟨(rows.map PgTable.fromRow).map (fun t => (processTableLogged conn t).fst),
      ?_, ?_, ?_⟩
    · rw [hgt]
      exact tablesLoopSpec_ok conn (rows.map PgTable.fromRow) hall
    · simp
    · intro i hi ho
      have hget : ((rows.map PgTable.fromRow).map
          (fun t => (processTableLogged conn t).fst)).get ⟨i, ho⟩ =
          (processTableLogged conn (PgTable.fromRow (rows.get ⟨i, hi⟩))).fst := by
        simp [List.get_eq_getElem, List.getElem_map]
      rw [hget]
      constructor
      · intro hc
        exact processTableLogged_fst_of_columns_failure conn
          (PgTable.fromRow (rows.get ⟨i, hi⟩)) rfl hc
      · intro hs
        exact processTableLogged_fst_of_sequences_failure conn
          (PgTable.fromRow (rows.get ⟨i, hi⟩)) rfl hs
  · intro hfail
    obtain ⟨r, hr, hrf⟩ := hfail
    obtain ⟨err, herr⟩ := tablesLoopSpec_error conn (rows.map PgTable.fromRow)
      ⟨PgTable.fromRow r, List.mem_map.mpr ⟨r, hr, rfl⟩, hrf⟩
    refine ⟨err, ?_⟩
    rw [hgt]
    exact herr

theorem get_tables_error_policy_witness :
    (∃ ts : List PgTable, get_tables colFailConn = .ok ts ∧ ts.length = 1 ∧
      ∀ ho : 0 < ts.length,
        (ts.get ⟨0, ho⟩).columns = [] ∧ (ts.get ⟨0, ho⟩).sequences = []) ∧
    (∃ ts : List PgTable, get_tables seqAttachFailConn = .ok ts ∧ ts.length = 1 ∧
      ∀ ho : 0 < ts.length, (ts.get ⟨0, ho⟩).sequences = []) ∧
    (∃ err : DumpError, get_tables failSizeConn = .error err) := by
  refine ⟨?_, ?_, ?_⟩
  · obtain ⟨ts, h1, h2, h3⟩ :=
      (get_tables_error_policy colFailConn [⟨"users", "public"⟩] rfl).1
        (by intro r hr; simp at hr; subst hr; rfl)
    exact ⟨ts, h1, h2, fun ho => (h3 0 (by decide) ho).1 rfl⟩
  · obtain ⟨ts, h1, h2, h3⟩ :=
      (get_tables_error_policy seqAttachFailConn [⟨"users", "public"⟩] rfl).1
        (by intro r hr; simp at hr; subst hr; rfl)
    exact ⟨ts, h1, h2, fun ho => (h3 0 (by decide) ho).2 rfl⟩
  · exact (get_tables_error_policy failSizeConn [⟨"users", "public"⟩] rfl).2
      ⟨⟨"users", "public"⟩, by simp, rfl⟩


theorem get_dependencies_ok_eq (conn : Connection) (table : PgTable)
    (fkRows : List FkRow)
    (hq : conn.foreignKeysQuery table.get_name = .ok fkRows) :
    get_dependencies conn table =
      .ok (((fkRows.map ForeignKey.fromRow).map tableFromFkey).map (processDependency conn)) := by
  unfold get_dependencies
  rw [hq]

theorem processDependency_tablename (conn : Connection) (t : PgTable) :
    (processDependency conn t).tablename = t.tablename := by
  unfold processDependency processTableLogged
  cases get_table_size conn (attachColumnsSequences conn t) <;>
    simpa using (attach_meta conn t).1

theorem processDependency_schemaname (conn : Connection) (t : PgTable) :
    (processDependency conn t).schemaname = t.schemaname := by
  unfold processDependency processTableLogged
  cases get_table_size conn (attachColumnsSequences conn t) <;>
    simpa using (attach_meta conn t).2.1

set_option maxHeartbeats 800000 in
/-- C3: for every table whose foreign key references a table for which the
size query fails, `get_dependencies` still includes that referenced table in
the returned sequence with its size left at the default of `PgTable::new`; the
failure is only logged (one logged error, nothing returned as an error) and
the table is not removed from the result. -/
theorem get_dependencies_keeps_size_failure (conn : Connection) (table : PgTable)
    (fkRows : List FkRow)
    (hq : conn.foreignKeysQuery table.get_name = .ok fkRows) :
    ∃ ts : List PgTable, get_dependencies conn table = .ok ts ∧
      ts.length = fkRows.length ∧
      ∀ i : Nat, ∀ hi : i < fkRows.length, ∀ ho : i < ts.length,
        ∀ e : DbError,
        get_table_size conn
            (PgTable.new (fkRows.get ⟨i, hi⟩).foreign_table_name
              (fkRows.get ⟨i, hi⟩).foreign_table_schema) = .error e →
          (ts.get ⟨i, ho⟩).tablename = (fkRows.get ⟨i, hi⟩).foreign_table_name ∧
          (ts.get ⟨i, ho⟩).schemaname = (fkRows.get ⟨i, hi⟩).foreign_table_schema ∧
          (ts.get ⟨i, ho⟩).size =
            (PgTable.new (fkRows.get ⟨i, hi⟩).foreign_table_name
              (fkRows.get ⟨i, hi⟩).foreign_table_schema).size ∧
          (processTableLogged conn
            (PgTable.new (fkRows.get ⟨i, hi⟩).foreign_table_name
              (fkRows.get ⟨i, hi⟩).foreign_table_schema)).snd = [e] := by
  refine ⟨((fkRows.map ForeignKey.fromRow).map tableFromFkey).map (processDependency conn),
    get_dependencies_ok_eq conn table fkRows hq, by simp, ?_⟩
  intro i hi ho e hsz
  have hget : ((((fkRows.map ForeignKey.fromRow).map tableFromFkey).map
      (processDependency conn)).get ⟨i, ho⟩) =
      processDependency conn
        (PgTable.new (fkRows.get ⟨i, hi⟩).foreign_table_name
          (fkRows.get ⟨i, hi⟩).foreign_table_schema) := by
    simp [List.get_eq_getElem, List.getElem_map, tableFromFkey, ForeignKey.fromRow]
  rw [hget]
  obtain ⟨hfst, hsnd⟩ := processTableLogged_of_size_error conn
    (PgTable.new (fkRows.get ⟨i, hi⟩).foreign_table_name
      (fkRows.get ⟨i, hi⟩).foreign_table_schema) e hsz
  obtain ⟨h1, h2, h3⟩ := attach_meta conn
    (PgTable.new (fkRows.get ⟨i, hi⟩).foreign_table_name
      (fkRows.get ⟨i, hi⟩).foreign_table_schema)
  unfold processDependency
  rw [hfst]
  exact ⟨h1, h2, h3, hsnd⟩

/-- A connection with one table whose single foreign key references a table
with a failing size query. -/
def fkFailSizeConn : Connection :=
  { tablesQuery := .ok [⟨"orders", "public"⟩]
    foreignKeysQuery := fun _ =>
      .ok [⟨"public", "orders_user_id_fkey", "orders", "user_id", "public", "users", "id"⟩]
    columnsQuery := fun _ _ => .ok []
    sizeQuery := fun _ _ => .error (DbError.queryError "size failed")
    serialSequenceQuery := fun _ _ => .ok none }

theorem get_dependencies_keeps_size_failure_witness :
    ∃ ts : List PgTable,
      get_dependencies fkFailSizeConn (PgTable.new "orders" "public") = .ok ts ∧
      ts.length = 1 := by
  obtain ⟨ts, h1, h2, _⟩ := get_dependencies_keeps_size_failure fkFailSizeConn
    (PgTable.new "orders" "public")
    [⟨"public", "orders_user_id_fkey", "orders", "user_id", "public", "users", "id"⟩] rfl
  exact ⟨ts, h1, h2⟩

set_option maxHeartbeats 800000 in
/-- C9: `get_dependencies` performs no deduplication: it returns exactly one
table per foreign-key constraint row, in the same order as the rows (the i-th
result is the processed referenced table of the i-th row), so two rows
referencing the same table produce equal duplicate entries. -/
theorem get_dependencies_no_dedup (conn : Connection) (table : PgTable)
    (fkRows : List FkRow)
    (hq : conn.foreignKeysQuery table.get_name = .ok fkRows) :
    ∃ ts : List PgTable, get_dependencies conn table = .ok ts ∧
      ts.length = fkRows.length ∧
      (∀ i : Nat, ∀ hi : i < fkRows.length, ∀ ho : i < ts.length,
        ts.get ⟨i, ho⟩ =
          processDependency conn
            (PgTable.new (fkRows.get ⟨i, hi⟩).foreign_table_name
              (fkRows.get ⟨i, hi⟩).foreign_table_schema) ∧
        (ts.get ⟨i, ho⟩).tablename = (fkRows.get ⟨i, hi⟩).foreign_table_name ∧
        (ts.get ⟨i, ho⟩).schemaname = (fkRows.get ⟨i, hi⟩).foreign_table_schema) ∧
      (∀ i j : Nat, ∀ hi : i < fkRows.length, ∀ hj : j < fkRows.length,
        ∀ hoi : i < ts.length, ∀ hoj : j < ts.length,
        (fkRows.get ⟨i, hi⟩).foreign_table_name = (fkRows.get ⟨j, hj⟩).foreign_table_name →
        (fkRows.get ⟨i, hi⟩).foreign_table_schema = (fkRows.get ⟨j, hj⟩).foreign_table_schema →
        ts.get ⟨i, hoi⟩ = ts.get ⟨j, hoj⟩) := by
  have hElem : ∀ i : Nat, ∀ hi : i < fkRows.length,
      ∀ ho : i < (((fkRows.map ForeignKey.fromRow).map tableFromFkey).map
        (processDependency conn)).length,
      ((((fkRows.map ForeignKey.fromRow).map tableFromFkey).map
        (processDependency conn)).get ⟨i, ho⟩) =
        processDependency conn
          (PgTable.new (fkRows.get ⟨i, hi⟩).foreign_table_name
            (fkRows.get ⟨i, hi⟩).foreign_table_schema) := by
    intro i hi ho
    simp [List.get_eq_getElem, List.getElem_map, tableFromFkey, ForeignKey.fromRow]
  refine ⟨((fkRows.map ForeignKey.fromRow).map tableFromFkey).map (processDependency conn),
    get_dependencies_ok_eq conn table fkRows hq, by simp, ?_, ?_⟩
  · intro i hi ho
    rw [hElem i hi ho]
    exact ⟨rfl, processDependency_tablename conn _, processDependency_schemaname conn _⟩
  · intro i j hi hj hoi hoj hname hschema
    rw [hElem i hi hoi, hElem j hj hoj, hname, hschema]

/-- A connection with one table owning two foreign-key constraints that
reference the same table. -/
def dupFkConn : Connection :=
  { tablesQuery := .ok [⟨"orders", "public"⟩]
    foreignKeysQuery := fun _ =>
      .ok [⟨"public", "orders_buyer_fkey", "orders", "buyer_id", "public", "users", "id"⟩,
           ⟨"public", "orders_seller_fkey", "orders", "seller_id", "public", "users", "id"⟩]
    columnsQuery := fun _ _ => .ok []
    sizeQuery := fun _ _ => .ok 42
    serialSequenceQuery := fun _ _ => .ok none }

theorem get_dependencies_no_dedup_witness :
    ∃ ts : List PgTable,
      get_dependencies dupFkConn (PgTable.new "orders" "public") = .ok ts ∧
      ts.length = 2 ∧
      ∀ h0 : 0 < ts.length, ∀ h1 : 1 < ts.length, ts.get ⟨0, h0⟩ = ts.get ⟨1, h1⟩ := by
  obtain ⟨ts, h1, h2, _, hdup⟩ := get_dependencies_no_dedup dupFkConn
    (PgTable.new "orders" "public")
    [⟨"public", "orders_buyer_fkey", "orders", "buyer_id", "public", "users", "id"⟩,
     ⟨"public", "orders_seller_fkey", "orders", "seller_id", "public", "users", "id"⟩] rfl
  exact ⟨ts, h1, h2, fun h0 h1b =>
    hdup 0 1 (by decide) (by decide) h0 h1b rfl rfl⟩

/-- A filesystem on which the path "dump.sql" is an existing writable file. -/
def existingFileFs : FileSystem :=
  ⟨fun p => if p = "dump.sql" then FileState.writableFile else FileState.absent⟩

/-- C4 counterexample: with a destination path naming an already-existing
writable file, sink creation succeeds (Rust's `File::create` truncates instead
of failing), contradicting the claim that creation fails whenever the path
already exists. -/
theorem sink_create_succeeds_on_existing_path :
    existingFileFs.state "dump.sql" = FileState.writableFile ∧
    selectSinkAndIndicator existingFileFs (some "dump.sql") =
      .ok (Sink.file "dump.sql", Indicator.console) := by
  constructor
  · simp [existingFileFs]
  · simp [selectSinkAndIndicator, fileCreate, existingFileFs]

/-- C4 (amended): whenever a destination file path is configured, the sink is
the file created (or truncated, when a writable file already exists) at that
path — creation fails only if the path is unwritable — and the progress
indicator is the interactive one; whenever no path is configured, the sink is
the process's standard output and the indicator is the silent one. -/
theorem sink_indicator_selection (fs : FileSystem) (p : String) :
    selectSinkAndIndicator fs none = .ok (Sink.standardOutput, Indicator.silent) ∧
    (fs.state p ≠ FileState.unwritable →
      selectSinkAndIndicator fs (some p) = .ok (Sink.file p, Indicator.console)) ∧
    (fs.state p = FileState.unwritable →
      selectSinkAndIndicator fs (some p) = .error IoError.createFailed) := by
  refine ⟨rfl, ?_, ?_⟩ <;> intro h <;>
    cases hs : fs.state p <;>
    simp [selectSinkAndIndicator, fileCreate, hs] <;>
    simp [hs] at h

theorem sink_indicator_selection_witness :
    existingFileFs.state "dump.sql" ≠ FileState.unwritable ∧
    selectSinkAndIndicator existingFileFs (some "dump.sql") =
      .ok (Sink.file "dump.sql", Indicator.console) :=
  ⟨by simp [existingFileFs], (sink_indicator_selection existingFileFs "dump.sql").2.1
    (by simp [existingFileFs])⟩

/-- C6: the size estimate never divides by zero: the page-count divisor
`COALESCE(NULLIF(relpages, 0), 1)` is nonzero for every page count, a relation
reporting zero pages yields the computed size
`reltuples * (relation_size / block_size)` (page-count floor of 1), and
`get_table_size` over a catalog-backed connection returns exactly the `len`
value of the matched `pg_class` row. -/
theorem table_size_no_division_by_zero (entries : List PgClassEntry) (blockSize : Int)
    (base : Connection) (table : PgTable) (e : PgClassEntry) :
    pagesDivisor e.relpages ≠ 0 ∧
    (e.relpages = 0 → rowLen blockSize e = e.reltuples * (e.relationSize / blockSize)) ∧
    (entries.filter (fun x => x.relname == table.tablename && x.nspname == table.schemaname)
        = [e] →
      get_table_size (sizeConnection entries blockSize base) table = .ok (rowLen blockSize e)) := by
  refine ⟨?_, ?_, ?_⟩
  · unfold pagesDivisor
    split
    · exact one_ne_zero
    · assumption
  · intro h
    unfold rowLen pagesDivisor
    rw [h]
    simp
  · intro h
    have hrw : get_table_size (sizeConnection entries blockSize base) table =
        runSizeQuery entries blockSize table.tablename table.schemaname := rfl
    rw [hrw]
    unfold runSizeQuery
    rw [h]

/-- A one-row `pg_class` snapshot: an empty table (zero pages, zero relation
size) with a stale positive tuple estimate. -/
def zeroPagesEntry : PgClassEntry :=
  ⟨"users", "public", 7, 0, 0⟩

theorem table_size_no_division_by_zero_witness :
    zeroPagesEntry.relpages = 0 ∧
    rowLen 8192 zeroPagesEntry = zeroPagesEntry.reltuples *
      (zeroPagesEntry.relationSize / 8192) ∧
    get_table_size (sizeConnection [zeroPagesEntry] 8192 noopConn)
      (PgTable.new "users" "public") = .ok (rowLen 8192 zeroPagesEntry) := by
  refine ⟨rfl, ?_, ?_⟩
  · exact (table_size_no_division_by_zero [zeroPagesEntry] 8192 noopConn
      (PgTable.new "users" "public") zeroPagesEntry).2.1 rfl
  · exact (table_size_no_division_by_zero [zeroPagesEntry] 8192 noopConn
      (PgTable.new "users" "public") zeroPagesEntry).2.2
      (by simp [zeroPagesEntry, PgTable.new])

/-- C10: `get_sequences` returns one sequence per column whose catalog lookup
yields a non-null backing-sequence name, in the order of the table's columns
(filterMap over the columns; a table with no columns yields the empty list);
if the per-column query fails for some column — all columns before it having
succeeded — the whole operation returns that error and no partial list. -/
theorem get_sequences_error_policy (conn : Connection) (table : PgTable) :
    ((∀ c ∈ table.columns,
        (conn.serialSequenceQuery table.quoted_full_name c.name).isOk = true) →
      get_sequences conn table = .ok (table.columns.filterMap (fun c =>
        match conn.serialSequenceQuery table.quoted_full_name c.name with
        | .ok (some full_name) => some (PgSequence.mk full_name)
        | _ => none))) ∧
    (∀ pre : List PgColumn, ∀ c : PgColumn, ∀ post : List PgColumn, ∀ e : DbError,
      table.columns = pre ++ c :: post →
      (∀ c2 ∈ pre, (conn.serialSequenceQuery table.quoted_full_name c2.name).isOk = true) →
      conn.serialSequenceQuery table.quoted_full_name c.name = .error e →
      get_sequences conn table = .error e) := by
  constructor
  · intro h
    unfold get_sequences
    exact sequencesLoop_ok _ table.columns h
  · intro pre c post e hcols hpre hc
    unfold get_sequences
    rw [hcols]
    exact sequencesLoop_first_error _ pre c post e hpre hc

/-- A table with two columns, the first backed by a sequence. -/
def twoColTable : PgTable :=
  { tablename := "users"
    schemaname := "public"
    columns := [⟨"id", 1, "integer", 23⟩, ⟨"name", 2, "text", 25⟩]
    sequences := []
    size := 0 }

/-- A connection whose serial-sequence query succeeds for the column "id" and
fails for every other column. -/
def seqFailConn : Connection :=
  { tablesQuery := .ok []
    foreignKeysQuery := fun _ => .ok []
    columnsQuery := fun _ _ => .ok []
    sizeQuery := fun _ _ => .ok 0
    serialSequenceQuery := fun _ colName =>
      if colName = "id" then .ok (some "public.users_id_seq")
      else .error (DbError.queryError "sequence lookup failed") }

theorem get_sequences_error_policy_witness :
    get_sequences seqFailConn twoColTable =
      .error (DbError.queryError "sequence lookup failed") :=
  (get_sequences_error_policy seqFailConn twoColTable).2
    [⟨"id", 1, "integer", 23⟩] ⟨"name", 2, "text", 25⟩ [] (DbError.queryError "sequence lookup failed")
    rfl (by simp [seqFailConn, Except.isOk, Except.toBool]) (by simp [seqFailConn])

theorem runColumnsQuery_sorted (rows : List ColumnRow) :
    (runColumnsQuery rows).Pairwise
      (fun a b => a.ordinal_position ≤ b.ordinal_position) := by
  have h : (runColumnsQuery rows).Pairwise
      (fun a b => decide (a.ordinal_position ≤ b.ordinal_position) = true) := by
    unfold runColumnsQuery
    exact List.sorted_mergeSort
      (fun a b c hab hbc => by
        simp only [decide_eq_true_eq] at hab hbc ⊢
        omega)
      (fun a b => by
        by_cases hab : a.ordinal_position ≤ b.ordinal_position
        · simp [hab]
        · simp [hab]
          omega)
      rows
  exact h.imp (fun hab => of_decide_eq_true hab)

theorem runColumnsQuery_perm (rows : List ColumnRow) :
    List.Perm (runColumnsQuery rows) rows := by
  unfold runColumnsQuery
  exact List.mergeSort_perm rows _

theorem runColumnsQuery_strict (rows : List ColumnRow)
    (hd : rows.Pairwise (fun a b => a.ordinal_position ≠ b.ordinal_position)) :
    (runColumnsQuery rows).Pairwise
      (fun a b => a.ordinal_position < b.ordinal_position) := by
  have hne : (runColumnsQuery rows).Pairwise
      (fun a b => a.ordinal_position ≠ b.ordinal_position) :=
    (List.Perm.pairwise_iff (fun hxy => Ne.symm hxy) (runColumnsQuery_perm rows)).mpr hd
  exact ((runColumnsQuery_sorted rows).and hne).imp
    (fun hab => lt_of_le_of_ne hab.1 hab.2)

/-- C5: `get_columns` over a catalog-backed connection returns exactly the
rows of the ordered column query mapped row-for-row into columns — N rows
yield N columns in the same order — and whenever the table's catalog rows
carry pairwise-distinct ordinal positions (as the catalog guarantees), the
returned columns are in strictly ascending ordinal-position order. -/
theorem get_columns_ordered (catalog : String → String → List ColumnRow)
    (base : Connection) (table : PgTable) :
    get_columns (columnsConnection catalog base) table =
      .ok ((runColumnsQuery (catalog table.schemaname table.tablename)).map PgColumn.fromRow) ∧
    ((runColumnsQuery (catalog table.schemaname table.tablename)).map PgColumn.fromRow).length =
      (catalog table.schemaname table.tablename).length ∧
    ((catalog table.schemaname table.tablename).Pairwise
        (fun a b => a.ordinal_position ≠ b.ordinal_position) →
      (((runColumnsQuery (catalog table.schemaname table.tablename)).map
          PgColumn.fromRow).map PgColumn.position).Pairwise (fun a b => a < b)) := by
  refine ⟨rfl, by simp [runColumnsQuery], ?_⟩
  intro hd
  have hs := runColumnsQuery_strict (catalog table.schemaname table.tablename) hd
  rw [List.pairwise_map, List.pairwise_map]
  exact hs.imp (fun hab => hab)

/-- A two-column catalog whose rows arrive out of ordinal order. -/
def exColCatalog : String → String → List ColumnRow :=
  fun _ _ => [⟨"name", 2, "text", 25⟩, ⟨"id", 1, "integer", 23⟩]

theorem get_columns_ordered_witness :
    (exColCatalog "public" "users").Pairwise
      (fun a b => a.ordinal_position ≠ b.ordinal_position) ∧
    (((runColumnsQuery (exColCatalog "public" "users")).map PgColumn.fromRow).map
      PgColumn.position).Pairwise (fun a b => a < b) :=
  ⟨by decide, (get_columns_ordered exColCatalog noopConn (PgTable.new "users" "public")).2.2
    (by decide)⟩
